import Mathlib

/-!
Shallow embedding of the conversation-identity and inbox-aggregation core of the
Campus Utility Hub repository (src/js/chat-hub.js, src/js/lost-found.js, and the
marketplace module in src/unnamed/part_001), together with theorems settling the
frozen claims about it.

Modelling conventions:
* Firestore's `chats` collection is an association list from document key to record.
* Server timestamps (`FieldValue.serverTimestamp()`) and client timestamps
  (`new Date().toISOString()`) are modelled as natural numbers supplied as
  explicit parameters to each operation.
* `FieldValue.arrayUnion(obj)` on the `messages` array is modelled by its
  documented semantics: the element is appended only if an equal element is not
  already present.
* JavaScript string comparison (used by `Array.prototype.sort()` in
  `initiateChat`) is lexicographic on code units; it is embedded as a
  lexicographic comparison of the character lists underlying Lean strings.
-/

namespace CampusHub

/-- A chat message as pushed into the Firestore `messages` array by
`sendMessage` (chat-hub.js 237-250, lost-found.js 142-160) and
`sendMsgBtn.onclick` (marketplace module): sender uid, text body and a
client-generated timestamp. -/
structure Message where
  senderId : String
  text : String
  timestamp : Nat
deriving DecidableEq

/-- A conversation document of the `chats` collection: the optional origin-item
field `itemId`, the two participant uids, their contact e-mails, the ordered
message array, and the `lastUpdated` server timestamp (its `.seconds` value). -/
structure ChatRecord where
  itemId : Option String
  participants : List String
  participantEmails : List String
  messages : List Message
  lastUpdated : Nat
deriving DecidableEq

/-- The `chats` collection, as an association list keyed by document id. -/
abbrev Store := List (String × ChatRecord)

/-- Read a document by key (`db.collection("chats").doc(id).get()`). -/
def lookupStore : Store → String → Option ChatRecord
  | [], _ => none
  | (k, r) :: rest, key => if key = k then some r else lookupStore rest key

/-- Create or overwrite a document at a key (`chatRef.set(...)`, `.update(...)`). -/
def setRecord : Store → String → ChatRecord → Store
  | [], key, r => [(key, r)]
  | (k0, r0) :: rest, key, r =>
      if key = k0 then (key, r) :: rest else (k0, r0) :: setRecord rest key r

/-- Lexicographic comparison of character lists, embedding the JavaScript
string `<` comparison on code units used by the default `Array.sort()`. -/
def charListLt : List Char → List Char → Bool
  | [], [] => false
  | [], _ :: _ => true
  | _ :: _, [] => false
  | a :: as, b :: bs => if a < b then true else if b < a then false else charListLt as bs

/-- JavaScript string comparison `a < b`. -/
def strLtb (a b : String) : Bool := charListLt a.data b.data

/-- `[a, b].sort()` for two strings: JavaScript's default sort orders the pair
ascending by the string comparison. -/
def jsSortPair (a b : String) : List String := if strLtb b a then [b, a] else [a, b]

/-- `array.join('_')`. -/
def joinUnderscore : List String → String
  | [] => ""
  | [x] => x
  | x :: xs => x ++ "_" ++ joinUnderscore xs

/-- General-DM conversation key (chat-hub.js 179):
`[auth.currentUser.uid, targetUid].sort().join('_')`. -/
def generalChatId (a b : String) : String := joinUnderscore (jsSortPair a b)

/-- Marketplace conversation key (marketplace module, `openChat`):
`` `${itemId}_${buyerId}_${sellerId}` ``. -/
def marketChatId (itemId buyerId sellerId : String) : String :=
  itemId ++ "_" ++ buyerId ++ "_" ++ sellerId

/-- Lost-and-found conversation key (lost-found.js 122):
`` `LF_${itemId}_${auth.currentUser.uid}_${reporterId}` `` — the requester
(current user) comes before the reporter. -/
def lfChatId (itemId requesterId reporterId : String) : String :=
  "LF_" ++ itemId ++ "_" ++ requesterId ++ "_" ++ reporterId

/-- Modelled from the spec: the lost-and-found key as the spec sentence words
it — "a fixed category prefix + item identifier + reporter-contact identifier +
requester identifier". Used only to compare the spec's stated order against the
key the code actually derives. -/
def lfChatIdSpec (itemId requesterId reporterId : String) : String :=
  "LF_" ++ itemId ++ "_" ++ reporterId ++ "_" ++ requesterId

/-- `initiateChat` (chat-hub.js 174-192): derives the sorted two-party key,
reads the document, creates it with an empty message list when absent, and
returns the key it opens. There is no self-identifier check in this function. -/
def initiateChat (me myEmail targetUid targetEmail : String) (serverTs : Nat)
    (st : Store) : String × Store :=
  let chatId := generalChatId me targetUid
  match lookupStore st chatId with
  | some _ => (chatId, st)
  | none =>
      (chatId, setRecord st chatId
        ⟨none, [me, targetUid], [myEmail, targetEmail], [], serverTs⟩)

/-- `openChat` (marketplace module 287-308): rejects a falsy seller id or the
current user as seller before touching the store; otherwise derives the
`item_buyer_seller` key and gets-or-creates the record. `none` means the
attempt was rejected. -/
def openChat (me myEmail sellerId sellerEmail itemId : String) (serverTs : Nat)
    (st : Store) : Option String × Store :=
  if sellerId = "" ∨ sellerId = me then (none, st)
  else
    let chatId := marketChatId itemId me sellerId
    match lookupStore st chatId with
    | some _ => (some chatId, st)
    | none =>
        (some chatId, setRecord st chatId
          ⟨some itemId, [me, sellerId], [myEmail, sellerEmail], [], serverTs⟩)

/-- `contactReporter` (lost-found.js 117-140): rejects the reporter being the
current user before any store access; otherwise derives the `LF_` key and
gets-or-creates the record. `none` means the attempt was rejected. -/
def contactReporter (me myEmail reporterId reporterEmail itemId : String)
    (serverTs : Nat) (st : Store) : Option String × Store :=
  if reporterId = me then (none, st)
  else
    let chatId := lfChatId itemId me reporterId
    match lookupStore st chatId with
    | some _ => (some chatId, st)
    | none =>
        (some chatId, setRecord st chatId
          ⟨some itemId, [me, reporterId], [myEmail, reporterEmail], [], serverTs⟩)

/-- JavaScript `String.prototype.trim()`: strip whitespace from both ends. -/
def jsTrim (s : String) : String :=
  ⟨((s.data.dropWhile Char.isWhitespace).reverse.dropWhile Char.isWhitespace).reverse⟩

/-- `FieldValue.arrayUnion(m)` applied to a message array: append `m` only when
no equal element is already present. -/
def arrayUnionMsg (ms : List Message) (m : Message) : List Message :=
  if m ∈ ms then ms else ms ++ [m]

/-- The message-send handler, identical in all three modules (chat-hub.js
`sendMessage`, lost-found.js `sendMessage`, marketplace `sendMsgBtn.onclick`):
trim the input; bail out when the trimmed text is empty or no chat is active;
otherwise update the active document with `arrayUnion` of the new message and a
fresh `lastUpdated` server timestamp. An update against a missing document
fails and leaves the store unchanged. -/
def sendMessage (uid rawText : String) (clientTs serverTs : Nat)
    (activeChat : Option String) (st : Store) : Store :=
  if jsTrim rawText = "" then st
  else
    match activeChat with
    | none => st
    | some chatId =>
        match lookupStore st chatId with
        | none => st
        | some r =>
            setRecord st chatId
              { r with
                messages := arrayUnionMsg r.messages ⟨uid, jsTrim rawText, clientTs⟩,
                lastUpdated := serverTs }

/-- The message object a send operation `(sender, rawText, clientTs, serverTs)`
would append. -/
def msgOfSend (p : String × String × Nat × Nat) : Message :=
  ⟨p.1, jsTrim p.2.1, p.2.2.1⟩

/-- Run a sequence of send operations against one active conversation. -/
def runSends (chatId : String) (sends : List (String × String × Nat × Nat))
    (st : Store) : Store :=
  sends.foldl (fun s p => sendMessage p.1 p.2.1 p.2.2.1 p.2.2.2 (some chatId) s) st

/-- JavaScript `key.startsWith(p)`, as a prefix test on the character lists. -/
def strStartsWith (s p : String) : Bool := p.data.isPrefixOf s.data

/-- `chatId.startsWith("LF_")` (chat-hub.js 48, lost-found.js 281). -/
def isLFChat (chatId : String) : Bool := strStartsWith chatId "LF_"

/-- `chat.itemId && !isLF` (chat-hub.js 49); the item-reference field of a
created record is a non-empty document id, so presence is `Option.isSome`. -/
def isMarketChat (chatId : String) (itemId : Option String) : Bool :=
  itemId.isSome && !isLFChat chatId

/-- `!isLF && !isMarket` (chat-hub.js 50). -/
def isGeneralChat (chatId : String) (itemId : Option String) : Bool :=
  !isLFChat chatId && !isMarketChat chatId itemId

/-- The category read back at display time from the key shape and the presence
of the item-reference field. -/
inductive ChatCategory
  | general
  | marketplace
  | lostFound
deriving DecidableEq

/-- The classification the readers perform, as an enumerated value. -/
def classifyChat (chatId : String) (itemId : Option String) : ChatCategory :=
  if isLFChat chatId then .lostFound
  else if (isMarketChat chatId itemId) then .marketplace
  else .general

/-- The sidebar tab of chat-hub.js. -/
inductive HubTab
  | general
  | marketplace
  | lostFound
deriving DecidableEq

/-- Tab filtering of `loadConversations` (chat-hub.js 52-55): keep only records
of the current tab's category. -/
def tabKeeps (tab : HubTab) (chatId : String) (itemId : Option String) : Bool :=
  match tab with
  | .lostFound => isLFChat chatId
  | .marketplace => isMarketChat chatId itemId
  | .general => isGeneralChat chatId itemId

/-- Presentation order of `loadConversations` (chat-hub.js 33-96): the snapshot
documents are rendered in the order the store returned them, after tab
filtering; no client-side re-sort happens. -/
def loadConversationsOrder (tab : HubTab) (docs : List (String × ChatRecord)) :
    List (String × ChatRecord) :=
  docs.filter (fun d => tabKeeps tab d.1 d.2.itemId)

/-- The `lastUpdated?.seconds || 0` recency key of a snapshot document
(marketplace `loadInbox`, 365-369). -/
def secondsOf (d : String × ChatRecord) : Nat := d.2.lastUpdated

/-- "Document `x` sorts no later than document `y`" under the comparator
`(a, b) => timeB - timeA`, i.e. descending recency. -/
def inboxLe (x y : String × ChatRecord) : Prop := secondsOf y ≤ secondsOf x

instance : DecidableRel inboxLe := fun x y => Nat.decLe (secondsOf y) (secondsOf x)

instance : IsTotal (String × ChatRecord) inboxLe :=
  ⟨fun x y => Nat.le_total (secondsOf y) (secondsOf x)⟩

instance : IsTrans (String × ChatRecord) inboxLe :=
  ⟨fun _ _ _ h1 h2 => Nat.le_trans h2 h1⟩

/-- Presentation order of the marketplace `loadInbox` (346-398):
`snap.docs.sort((a, b) => timeB - timeA)` — a comparison sort by descending
`lastUpdated.seconds`, recomputed client-side. -/
def loadInboxOrder (docs : List (String × ChatRecord)) : List (String × ChatRecord) :=
  List.insertionSort inboxLe docs

/-- The most recent message:
`messages.length > 0 ? messages[messages.length - 1] : null`. -/
def latestMessage (r : ChatRecord) : Option Message := r.messages.getLast?

/-- The unread flag `isNew = lastMsg && lastMsg.senderId !== auth.currentUser.uid`
(marketplace `loadInbox` 376, lost-found.js `loadHeaderInbox` 287). -/
def unreadFlag (viewer : String) (r : ChatRecord) : Bool :=
  match latestMessage r with
  | none => false
  | some m => m.senderId != viewer

/-- The aggregate unread counter: starts at 0 and is incremented once per
rendered conversation whose unread flag is set. -/
def inboxUnreadCount (viewer : String) (docs : List (String × ChatRecord)) : Nat :=
  docs.foldl (fun n d => if unreadFlag viewer d.2 then n + 1 else n) 0

/-- An identifier is separator-free when it contains no underscore. -/
def underscoreFree (s : String) : Prop := '_' ∉ s.data

/-- Number of separator characters in a key. -/
def sepCount (s : String) : Nat := s.data.count '_'

/-- An identifier that can never push the reserved lost-and-found marker to the
front of a derived key: it is not the bare string "LF" and does not itself
start with the reserved marker. -/
def idSafe (s : String) : Prop := s ≠ "LF" ∧ strStartsWith s "LF_" = false

instance (s : String) : Decidable (underscoreFree s) :=
  inferInstanceAs (Decidable ('_' ∉ s.data))

instance (s : String) : Decidable (idSafe s) :=
  inferInstanceAs (Decidable (s ≠ "LF" ∧ strStartsWith s "LF_" = false))

/-! ### Helper lemmas about the store -/

theorem lookupStore_setRecord (st : Store) (key k : String) (r : ChatRecord) :
    lookupStore (setRecord st key r) k = if k = key then some r else lookupStore st k := by
  induction st with
  | nil =>
      by_cases h : k = key <;> simp [setRecord, lookupStore, h]
  | cons hd tl ih =>
      obtain ⟨k0, r0⟩ := hd
      by_cases h0 : key = k0
      · subst h0
        by_cases h : k = key <;> simp [setRecord, lookupStore, h]
      · by_cases h : k = k0
        · subst h
          have hne : ¬ k = key := fun hh => h0 (by rw [hh])
          simp [setRecord, lookupStore, h0, hne]
        · simp [setRecord, lookupStore, h0, h, ih]

theorem lookupStore_setRecord_self (st : Store) (key : String) (r : ChatRecord) :
    lookupStore (setRecord st key r) key = some r := by
  rw [lookupStore_setRecord, if_pos rfl]

theorem setRecord_length_of_absent (st : Store) (key : String) (r : ChatRecord)
    (h : lookupStore st key = none) :
    (setRecord st key r).length = st.length + 1 := by
  induction st with
  | nil => simp [setRecord]
  | cons hd tl ih =>
      obtain ⟨k0, r0⟩ := hd
      by_cases h0 : key = k0
      · simp [lookupStore, h0] at h
      · simp only [lookupStore, if_neg h0] at h
        simp [setRecord, h0, ih h]

theorem setRecord_ne_of_absent (st : Store) (key : String) (r : ChatRecord)
    (h : lookupStore st key = none) : setRecord st key r ≠ st := by
  intro heq
  have := setRecord_length_of_absent st key r h
  rw [heq] at this
  omega

/-! ### Helper lemmas about the JavaScript string comparison -/

theorem charListLt_asymm : ∀ {as bs : List Char},
    charListLt as bs = true → charListLt bs as = false := by
  intro as
  induction as with
  | nil => intro bs h; cases bs <;> simp_all [charListLt]
  | cons a as ih =>
      intro bs h
      cases bs with
      | nil => simp [charListLt] at h
      | cons b bs =>
          simp only [charListLt] at h ⊢
          by_cases hab : a < b
          · have hba : ¬ b < a := fun hc => absurd (lt_trans hab hc) (lt_irrefl a)
            simp [hab, hba]
          · by_cases hba : b < a
            · simp [hab, hba] at h
            · simp only [if_neg hab, if_neg hba] at h ⊢
              exact ih h

theorem charListLt_false_antisymm : ∀ {as bs : List Char},
    charListLt as bs = false → charListLt bs as = false → as = bs := by
  intro as
  induction as with
  | nil => intro bs h1 _; cases bs <;> simp_all [charListLt]
  | cons a as ih =>
      intro bs h1 h2
      cases bs with
      | nil => simp [charListLt] at h2
      | cons b bs =>
          simp only [charListLt] at h1 h2
          by_cases hab : a < b
          · simp [hab] at h1
          · by_cases hba : b < a
            · simp [hba] at h2
            · simp only [if_neg hab, if_neg hba] at h1 h2
              have hchar : a = b := le_antisymm (not_lt.mp hba) (not_lt.mp hab)
              rw [hchar, ih h1 h2]

theorem strLtb_total_of_ne {a b : String} (hab : a ≠ b) :
    strLtb a b = true ∨ strLtb b a = true := by
  rcases h1 : strLtb a b with _ | _
  · rcases h2 : strLtb b a with _ | _
    · exact absurd (String.ext (charListLt_false_antisymm h1 h2)) hab
    · exact Or.inr rfl
  · exact Or.inl rfl

theorem joinUnderscore_pair (x y : String) : joinUnderscore [x, y] = x ++ "_" ++ y := rfl

/-! ### Helper lemmas about key shapes and the `LF_` marker -/

theorem isPrefixOf_lf_append (cs ds : List Char)
    (h1 : cs ≠ ['L', 'F'])
    (h2 : (['L', 'F', '_'] : List Char).isPrefixOf cs = false) :
    (['L', 'F', '_'] : List Char).isPrefixOf (cs ++ '_' :: ds) = false := by
  match cs with
  | [] =>
      simp only [List.nil_append]
      simp [List.isPrefixOf, show ('L' == '_') = false from by decide]
  | [c1] =>
      simp only [List.cons_append, List.nil_append]
      simp [List.isPrefixOf, show ('F' == '_') = false from by decide]
  | [c1, c2] =>
      simp only [List.cons_append, List.nil_append]
      simp only [List.isPrefixOf, Bool.and_eq_false_iff]
      by_cases e1 : c1 = 'L'
      · by_cases e2 : c2 = 'F'
        · exact absurd (by rw [e1, e2]) h1
        · exact Or.inr (Or.inl (beq_eq_false_iff_ne.mpr (fun h => e2 h.symm)))
      · exact Or.inl (beq_eq_false_iff_ne.mpr (fun h => e1 h.symm))
  | c1 :: c2 :: c3 :: rest =>
      simp only [List.cons_append]
      simp only [List.isPrefixOf, Bool.and_eq_false_iff] at h2 ⊢
      rcases h2 with h | h | h | h
      · exact Or.inl h
      · exact Or.inr (Or.inl h)
      · exact Or.inr (Or.inr (Or.inl h))
      · simp [List.isPrefixOf] at h

theorem strStartsWith_concat_lf (c d : String) (h : idSafe c) :
    strStartsWith (c ++ "_" ++ d) "LF_" = false := by
  show ("LF_").data.isPrefixOf ((c ++ "_" ++ d).data) = false
  have hd : (c ++ "_" ++ d).data = c.data ++ '_' :: d.data := by
    simp [String.data_append, show ("_" : String).data = ['_'] from rfl]
  rw [hd]
  exact isPrefixOf_lf_append c.data d.data
    (fun hc => h.1 (String.ext hc)) h.2

theorem isLFChat_general (a b : String) (ha : idSafe a) (hb : idSafe b) :
    isLFChat (generalChatId a b) = false := by
  unfold isLFChat generalChatId jsSortPair
  rcases h : strLtb b a with _ | _
  · rw [if_neg (by simp [h]), joinUnderscore_pair]
    exact strStartsWith_concat_lf a b ha
  · rw [if_pos (by simp [h]), joinUnderscore_pair]
    exact strStartsWith_concat_lf b a hb

theorem isLFChat_market (item buyer seller : String) (h : idSafe item) :
    isLFChat (marketChatId item buyer seller) = false := by
  unfold isLFChat marketChatId
  have hd : (item ++ "_" ++ buyer ++ "_" ++ seller).data
      = item.data ++ '_' :: (buyer.data ++ '_' :: seller.data) := by
    simp [String.data_append, show ("_" : String).data = ['_'] from rfl]
  show ("LF_").data.isPrefixOf ((item ++ "_" ++ buyer ++ "_" ++ seller).data) = false
  rw [hd]
  exact isPrefixOf_lf_append item.data _ (fun hc => h.1 (String.ext hc)) h.2

theorem isLFChat_lf (item req rep : String) :
    isLFChat (lfChatId item req rep) = true := by
  unfold isLFChat lfChatId
  have hd : ("LF_" ++ item ++ "_" ++ req ++ "_" ++ rep).data
      = 'L' :: 'F' :: '_' :: (item.data ++ '_' :: (req.data ++ '_' :: rep.data)) := by
    simp [String.data_append, show ("_" : String).data = ['_'] from rfl,
      show ("LF_" : String).data = ['L', 'F', '_'] from rfl]
  show ("LF_").data.isPrefixOf (("LF_" ++ item ++ "_" ++ req ++ "_" ++ rep).data) = true
  rw [hd]
  simp [List.isPrefixOf]

/-! ### Helper lemmas about separator counting -/

theorem sepCount_append (s t : String) : sepCount (s ++ t) = sepCount s + sepCount t := by
  simp [sepCount, String.data_append, List.count_append]

theorem sepCount_eq_zero {s : String} (h : underscoreFree s) : sepCount s = 0 :=
  List.count_eq_zero.mpr h

theorem sepCount_general {a b : String} (ha : underscoreFree a) (hb : underscoreFree b) :
    sepCount (generalChatId a b) = 1 := by
  unfold generalChatId jsSortPair
  rcases h : strLtb b a with _ | _
  · rw [if_neg (by simp [h]), joinUnderscore_pair, sepCount_append, sepCount_append,
      sepCount_eq_zero ha, sepCount_eq_zero hb]
    rfl
  · rw [if_pos (by simp [h]), joinUnderscore_pair, sepCount_append, sepCount_append,
      sepCount_eq_zero ha, sepCount_eq_zero hb]
    rfl

theorem sepCount_market {item buyer seller : String} (hi : underscoreFree item)
    (hb : underscoreFree buyer) (hs : underscoreFree seller) :
    sepCount (marketChatId item buyer seller) = 2 := by
  unfold marketChatId
  rw [sepCount_append, sepCount_append, sepCount_append, sepCount_append,
    sepCount_eq_zero hi, sepCount_eq_zero hb, sepCount_eq_zero hs]
  rfl

theorem sepCount_lf {item req rep : String} (hi : underscoreFree item)
    (hq : underscoreFree req) (hp : underscoreFree rep) :
    sepCount (lfChatId item req rep) = 3 := by
  unfold lfChatId
  rw [sepCount_append, sepCount_append, sepCount_append, sepCount_append,
    sepCount_append, sepCount_eq_zero hi, sepCount_eq_zero hq, sepCount_eq_zero hp]
  decide

/-! ### Helper lemmas about message sends -/

theorem sendMessage_append (chatId uid text : String) (cts sts : Nat) (st : Store)
    (r : ChatRecord) (hr : lookupStore st chatId = some r) (ht : jsTrim text ≠ "")
    (hmem : Message.mk uid (jsTrim text) cts ∉ r.messages) :
    sendMessage uid text cts sts (some chatId) st =
      setRecord st chatId
        ⟨r.itemId, r.participants, r.participantEmails,
          r.messages ++ [⟨uid, jsTrim text, cts⟩], sts⟩ := by
  simp [sendMessage, ht, hr, arrayUnionMsg, hmem]

theorem runSends_spec (chatId : String) :
    ∀ (sends : List (String × String × Nat × Nat)) (st : Store) (r : ChatRecord),
      lookupStore st chatId = some r →
      (∀ p ∈ sends, jsTrim p.2.1 ≠ "") →
      (r.messages ++ sends.map msgOfSend).Nodup →
      ∃ r', lookupStore (runSends chatId sends st) chatId = some r' ∧
        r'.messages = r.messages ++ sends.map msgOfSend := by
  intro sends
  induction sends with
  | nil =>
      intro st r hr _ _
      exact ⟨r, by simpa [runSends] using hr, by simp⟩
  | cons p ps ih =>
      intro st r hr htext hnodup
      rw [List.map_cons] at hnodup
      have hm : msgOfSend p ∉ r.messages := by
        intro hmem
        exact (List.nodup_append.mp hnodup).2.2 hmem (List.mem_cons_self _ _)
      have hstep := sendMessage_append chatId p.1 p.2.1 p.2.2.1 p.2.2.2 st r hr
        (htext p (List.mem_cons_self _ _)) hm
      have hrun : runSends chatId (p :: ps) st =
          runSends chatId ps (sendMessage p.1 p.2.1 p.2.2.1 p.2.2.2 (some chatId) st) := by
        simp [runSends]
      have hr1 : lookupStore (sendMessage p.1 p.2.1 p.2.2.1 p.2.2.2 (some chatId) st) chatId
          = some ⟨r.itemId, r.participants, r.participantEmails,
              r.messages ++ [msgOfSend p], p.2.2.2⟩ := by
        rw [hstep]
        exact lookupStore_setRecord_self st chatId _
      have hnodup1 : ((r.messages ++ [msgOfSend p]) ++ ps.map msgOfSend).Nodup := by
        rw [← List.append_cons]
        exact hnodup
      obtain ⟨r', hl, hmsgs⟩ := ih _ _ hr1 (fun q hq => htext q (List.mem_cons_of_mem _ hq))
        hnodup1
      refine ⟨r', ?_, ?_⟩
      · rw [hrun]
        exact hl
      · rw [hmsgs]
        simp

theorem foldl_unread_count (viewer : String) :
    ∀ (docs : List (String × ChatRecord)) (n : Nat),
      docs.foldl (fun n d => if unreadFlag viewer d.2 then n + 1 else n) n =
        n + docs.countP (fun d => unreadFlag viewer d.2) := by
  intro docs
  induction docs with
  | nil => intro n; simp
  | cons d ds ih =>
      intro n
      simp only [List.foldl_cons, List.countP_cons]
      by_cases h : unreadFlag viewer d.2
      · rw [if_pos h, ih, if_pos h]
        omega
      · rw [if_neg h, ih, if_neg h]
        omega

/-! ### Claim theorems -/

/-- C1: for every pair of distinct participant identifiers, the general-DM key
derived from `(a, b)` and from `(b, a)` is the same string, namely the two
identifiers sorted ascending by the string comparison and joined with the
fixed separator. -/
theorem C1_general_key_symmetric (a b : String) (hab : a ≠ b) :
    generalChatId a b = generalChatId b a ∧
    ((strLtb a b = true ∧ generalChatId a b = a ++ "_" ++ b) ∨
     (strLtb b a = true ∧ generalChatId a b = b ++ "_" ++ a)) := by
  rcases strLtb_total_of_ne hab with h | h
  · have h' : strLtb b a = false := charListLt_asymm h
    have e1 : generalChatId a b = a ++ "_" ++ b := by
      unfold generalChatId jsSortPair
      rw [if_neg (by simp [h']), joinUnderscore_pair]
    have e2 : generalChatId b a = a ++ "_" ++ b := by
      unfold generalChatId jsSortPair
      rw [if_pos h, joinUnderscore_pair]
    exact ⟨e1.trans e2.symm, Or.inl ⟨h, e1⟩⟩
  · have h' : strLtb a b = false := charListLt_asymm h
    have e1 : generalChatId a b = b ++ "_" ++ a := by
      unfold generalChatId jsSortPair
      rw [if_pos h, joinUnderscore_pair]
    have e2 : generalChatId b a = b ++ "_" ++ a := by
      unfold generalChatId jsSortPair
      rw [if_neg (by simp [h']), joinUnderscore_pair]
    exact ⟨e1.trans e2.symm, Or.inr ⟨h, e1⟩⟩

/-- Witness for C1 at the concrete pair ("u1", "u2"). -/
theorem C1_witness :
    ("u1" : String) ≠ "u2" ∧
    (generalChatId "u1" "u2" = generalChatId "u2" "u1" ∧
     ((strLtb "u1" "u2" = true ∧ generalChatId "u1" "u2" = "u1" ++ "_" ++ "u2") ∨
      (strLtb "u2" "u1" = true ∧ generalChatId "u1" "u2" = "u2" ++ "_" ++ "u1"))) :=
  ⟨by decide, C1_general_key_symmetric "u1" "u2" (by decide)⟩

/-- C2 counterexample: invoked with the same identifier "A" as both initiator
and counterpart, the general-DM `initiateChat` is not rejected before store
access: it constructs the conversation key "A_A", reads the store, and issues
the creation write, so the claim fails for the general-DM category. -/
theorem C2_cex :
    (initiateChat "A" "a@campus.edu" "A" "a@campus.edu" 7 []).1 = "A_A" ∧
    (initiateChat "A" "a@campus.edu" "A" "a@campus.edu" 7 []).2 =
      [("A_A", ⟨none, ["A", "A"], ["a@campus.edu", "a@campus.edu"], [], 7⟩)] := by
  decide

/-- C2 (amended): the lost-and-found and marketplace operations reject a
self-contact before any store access — no key is produced and the store is
untouched — but the general-DM `initiateChat` performs no self-check: invoked
with the same identifier in both roles it still reads the store and, when the
self-key is absent, issues the creation write (the self case is excluded only
by the caller's search-result filter). -/
theorem C2_self_rejection (A myEmail otherEmail itemId : String) (ts : Nat) (st : Store) :
    contactReporter A myEmail A otherEmail itemId ts st = (none, st) ∧
    openChat A myEmail A otherEmail itemId ts st = (none, st) ∧
    (lookupStore st (generalChatId A A) = none →
      (initiateChat A myEmail A otherEmail ts st).2 ≠ st) := by
  refine ⟨by simp [contactReporter], by simp [openChat], fun h => ?_⟩
  simp only [initiateChat, h]
  exact setRecord_ne_of_absent st _ _ h

/-- Witness for C2's amended statement at the concrete identifier "A" and the
empty store. -/
theorem C2_witness :
    contactReporter "A" "a@c.edu" "A" "b@c.edu" "item1" 3 [] = (none, []) ∧
    openChat "A" "a@c.edu" "A" "b@c.edu" "item1" 3 [] = (none, []) ∧
    (initiateChat "A" "a@c.edu" "A" "b@c.edu" 3 []).2 ≠ [] := by
  have h := C2_self_rejection "A" "a@c.edu" "b@c.edu" "item1" 3 []
  exact ⟨h.1, h.2.1, h.2.2 (by decide)⟩

/-- C3 counterexample: for item "itemA", requester "u1" and reporter "u2", the
code derives "LF_itemA_u1_u2" — prefix, item, REQUESTER, reporter — while the
claim's order (prefix, item, reporter, requester) gives "LF_itemA_u2_u1". -/
theorem C3_cex :
    (contactReporter "u1" "u1@c.edu" "u2" "u2@c.edu" "itemA" 0 []).1 =
      some "LF_itemA_u1_u2" ∧
    lfChatIdSpec "itemA" "u1" "u2" = "LF_itemA_u2_u1" ∧
    ("LF_itemA_u1_u2" : String) ≠ "LF_itemA_u2_u1" := by
  decide

/-- C3 (amended): the derived lost-and-found key is the fixed category prefix,
then the item identifier, then the REQUESTER identifier, then the
reporter-contact identifier, joined by the separator in that order. -/
theorem C3_lf_key_order (me myEmail reporterId reporterEmail itemId : String)
    (ts : Nat) (st : Store) (h : reporterId ≠ me) :
    (contactReporter me myEmail reporterId reporterEmail itemId ts st).1 =
      some ("LF_" ++ itemId ++ "_" ++ me ++ "_" ++ reporterId) := by
  show (contactReporter me myEmail reporterId reporterEmail itemId ts st).1 =
    some (lfChatId itemId me reporterId)
  cases hx : lookupStore st (lfChatId itemId me reporterId) <;>
    simp [contactReporter, if_neg h, hx]

/-- Witness for C3's amended statement at item "itemA", requester "u1",
reporter "u2". -/
theorem C3_witness :
    ("u2" : String) ≠ "u1" ∧
    (contactReporter "u1" "u1@c.edu" "u2" "u2@c.edu" "itemA" 0 []).1 =
      some ("LF_" ++ "itemA" ++ "_" ++ "u1" ++ "_" ++ "u2") :=
  ⟨by decide, C3_lf_key_order "u1" "u1@c.edu" "u2" "u2@c.edu" "itemA" 0 [] (by decide)⟩

/-- C4: two successive lost-and-found contact attempts resolve to the same
conversation key; the first creates the record with an empty message sequence
when it is absent, the second leaves the store exactly as the first left it,
and a pre-existing record is never overwritten. -/
theorem C4_contact_idempotent (me myEmail reporterId reporterEmail itemId : String)
    (ts1 ts2 : Nat) (st : Store) (h : reporterId ≠ me) :
    (contactReporter me myEmail reporterId reporterEmail itemId ts1 st).1 =
      some (lfChatId itemId me reporterId) ∧
    (contactReporter me myEmail reporterId reporterEmail itemId ts2
        (contactReporter me myEmail reporterId reporterEmail itemId ts1 st).2).1 =
      some (lfChatId itemId me reporterId) ∧
    (contactReporter me myEmail reporterId reporterEmail itemId ts2
        (contactReporter me myEmail reporterId reporterEmail itemId ts1 st).2).2 =
      (contactReporter me myEmail reporterId reporterEmail itemId ts1 st).2 ∧
    (lookupStore st (lfChatId itemId me reporterId) = none →
      lookupStore (contactReporter me myEmail reporterId reporterEmail itemId ts1 st).2
          (lfChatId itemId me reporterId) =
        some ⟨some itemId, [me, reporterId], [myEmail, reporterEmail], [], ts1⟩) ∧
    (∀ r0, lookupStore st (lfChatId itemId me reporterId) = some r0 →
      (contactReporter me myEmail reporterId reporterEmail itemId ts1 st).2 = st) := by
  cases hx : lookupStore st (lfChatId itemId me reporterId) with
  | some r0 =>
      have e1 : contactReporter me myEmail reporterId reporterEmail itemId ts1 st =
          (some (lfChatId itemId me reporterId), st) := by
        simp [contactReporter, if_neg h, hx]
      have e2 : contactReporter me myEmail reporterId reporterEmail itemId ts2 st =
          (some (lfChatId itemId me reporterId), st) := by
        simp [contactReporter, if_neg h, hx]
      refine ⟨?_, ?_, ?_, fun hn => ?_, fun _ _ => ?_⟩
      · simp [e1]
      · simp [e1, e2]
      · simp [e1, e2]
      · exact absurd hn (by simp)
      · simp [e1]
  | none =>
      have e1 : contactReporter me myEmail reporterId reporterEmail itemId ts1 st =
          (some (lfChatId itemId me reporterId),
           setRecord st (lfChatId itemId me reporterId)
             ⟨some itemId, [me, reporterId], [myEmail, reporterEmail], [], ts1⟩) := by
        simp [contactReporter, if_neg h, hx]
      have hl : lookupStore
          (setRecord st (lfChatId itemId me reporterId)
            ⟨some itemId, [me, reporterId], [myEmail, reporterEmail], [], ts1⟩)
          (lfChatId itemId me reporterId) =
          some ⟨some itemId, [me, reporterId], [myEmail, reporterEmail], [], ts1⟩ :=
        lookupStore_setRecord_self st _ _
      have e2 : contactReporter me myEmail reporterId reporterEmail itemId ts2
          (setRecord st (lfChatId itemId me reporterId)
            ⟨some itemId, [me, reporterId], [myEmail, reporterEmail], [], ts1⟩) =
          (some (lfChatId itemId me reporterId),
           setRecord st (lfChatId itemId me reporterId)
             ⟨some itemId, [me, reporterId], [myEmail, reporterEmail], [], ts1⟩) := by
        simp [contactReporter, if_neg h, hl]
      refine ⟨?_, ?_, ?_, fun _ => ?_, fun r0 hs => ?_⟩
      · simp [e1]
      · simp [e1, e2]
      · simp [e1, e2]
      · simp [e1, hl]
      · exact absurd hs (by simp)

/-- Witness for C4 at initiator "u1", counterpart "u2", item "itemA" on the
empty store: both attempts resolve to the key "LF_itemA_u1_u2" and the single
created record carries an empty message sequence. -/
theorem C4_witness :
    ("u2" : String) ≠ "u1" ∧
    (contactReporter "u1" "u1@c.edu" "u2" "u2@c.edu" "itemA" 1 []).1 =
      some (lfChatId "itemA" "u1" "u2") ∧
    lfChatId "itemA" "u1" "u2" = "LF_itemA_u1_u2" ∧
    (contactReporter "u1" "u1@c.edu" "u2" "u2@c.edu" "itemA" 2
        (contactReporter "u1" "u1@c.edu" "u2" "u2@c.edu" "itemA" 1 []).2).2 =
      (contactReporter "u1" "u1@c.edu" "u2" "u2@c.edu" "itemA" 1 []).2 ∧
    lookupStore (contactReporter "u1" "u1@c.edu" "u2" "u2@c.edu" "itemA" 1 []).2
        (lfChatId "itemA" "u1" "u2") =
      some ⟨some "itemA", ["u1", "u2"], ["u1@c.edu", "u2@c.edu"], [], 1⟩ := by
  have h := C4_contact_idempotent "u1" "u1@c.edu" "u2" "u2@c.edu" "itemA" 1 2 []
    (by decide)
  exact ⟨by decide, h.1, by decide, h.2.2.1, h.2.2.2.1 (by decide)⟩

/-- C5 counterexample: with identifiers that contain the separator character,
keys from all three categories can coincide — the single string "LF_a_b_c" is
simultaneously a general-DM key, a marketplace key and a lost-and-found key. -/
theorem C5_cex :
    generalChatId "LF" "a_b_c" = "LF_a_b_c" ∧
    marketChatId "LF" "a" "b_c" = "LF_a_b_c" ∧
    lfChatId "a" "b" "c" = "LF_a_b_c" := by
  decide

/-- C5 (amended): provided every participant and item identifier is free of the
separator character, keys of different categories are pairwise distinct (a
general key contains one separator, a marketplace key two, a lost-and-found
key three). -/
theorem C5_cross_category_distinct
    (a b item buyer seller item2 req rep : String)
    (ha : underscoreFree a) (hb : underscoreFree b)
    (hi : underscoreFree item) (hbu : underscoreFree buyer) (hse : underscoreFree seller)
    (hi2 : underscoreFree item2) (hrq : underscoreFree req) (hrp : underscoreFree rep) :
    generalChatId a b ≠ marketChatId item buyer seller ∧
    generalChatId a b ≠ lfChatId item2 req rep ∧
    marketChatId item buyer seller ≠ lfChatId item2 req rep := by
  refine ⟨fun he => ?_, fun he => ?_, fun he => ?_⟩
  · have hc := congrArg sepCount he
    rw [sepCount_general ha hb, sepCount_market hi hbu hse] at hc
    omega
  · have hc := congrArg sepCount he
    rw [sepCount_general ha hb, sepCount_lf hi2 hrq hrp] at hc
    omega
  · have hc := congrArg sepCount he
    rw [sepCount_market hi hbu hse, sepCount_lf hi2 hrq hrp] at hc
    omega

/-- Witness for C5's amended statement at separator-free identifiers. -/
theorem C5_witness :
    (underscoreFree "u1" ∧ underscoreFree "u2" ∧ underscoreFree "itm" ∧
     underscoreFree "buy" ∧ underscoreFree "sel" ∧ underscoreFree "itm2" ∧
     underscoreFree "req" ∧ underscoreFree "rep") ∧
    (generalChatId "u1" "u2" ≠ marketChatId "itm" "buy" "sel" ∧
     generalChatId "u1" "u2" ≠ lfChatId "itm2" "req" "rep" ∧
     marketChatId "itm" "buy" "sel" ≠ lfChatId "itm2" "req" "rep") :=
  ⟨by decide,
   C5_cross_category_distinct "u1" "u2" "itm" "buy" "sel" "itm2" "req" "rep"
     (by decide) (by decide) (by decide) (by decide) (by decide) (by decide)
     (by decide) (by decide)⟩

/-- C6 counterexample: a record created by the general-DM operation for the
participant pair ("LF", "x") gets key "LF_x" and no item reference, yet the
read-time classification files it under lost-and-found, so the category read
back differs from the category it was created under. -/
theorem C6_cex :
    (initiateChat "LF" "lf@c.edu" "x" "x@c.edu" 0 []).1 = "LF_x" ∧
    (lookupStore (initiateChat "LF" "lf@c.edu" "x" "x@c.edu" 0 []).2 "LF_x").map
      (fun r => r.itemId) = some none ∧
    classifyChat "LF_x" none = ChatCategory.lostFound := by
  decide

/-- C6 (amended): the three read-time classification predicates are mutually
exclusive and exhaustive — exactly one holds of every (key, item-reference)
pair — and the category read back matches the category written: always for
lost-and-found records, and for general-DM and marketplace records provided
the general participants' identifiers and the marketplace item identifier are
neither the bare string "LF" nor start with "LF_" (the shapes compared are
exactly the (key, item-reference) pairs the three initiation operations
write: general records carry no item reference, the other two carry their
item's identifier). -/
theorem C6_classification (a b buyer seller me rep itemM itemL : String)
    (ha : idSafe a) (hb : idSafe b) (hm : idSafe itemM) :
    (∀ (key : String) (itm : Option String),
      (isLFChat key).toNat + (isMarketChat key itm).toNat +
        (isGeneralChat key itm).toNat = 1) ∧
    classifyChat (generalChatId a b) none = ChatCategory.general ∧
    classifyChat (marketChatId itemM buyer seller) (some itemM) = ChatCategory.marketplace ∧
    classifyChat (lfChatId itemL me rep) (some itemL) = ChatCategory.lostFound := by
  refine ⟨fun key itm => ?_, ?_, ?_, ?_⟩
  · cases h1 : isLFChat key <;> cases h2 : itm.isSome <;>
      simp [isMarketChat, isGeneralChat, h1, h2]
  · simp [classifyChat, isLFChat_general a b ha hb, isMarketChat]
  · simp [classifyChat, isLFChat_market itemM buyer seller hm, isMarketChat]
  · simp [classifyChat, isLFChat_lf]

/-- Witness for C6's amended statement at concrete safe identifiers. -/
theorem C6_witness :
    (idSafe "u1" ∧ idSafe "u2" ∧ idSafe "itemA") ∧
    ((∀ (key : String) (itm : Option String),
        (isLFChat key).toNat + (isMarketChat key itm).toNat +
          (isGeneralChat key itm).toNat = 1) ∧
     classifyChat (generalChatId "u1" "u2") none = ChatCategory.general ∧
     classifyChat (marketChatId "itemA" "b1" "s1") (some "itemA") =
       ChatCategory.marketplace ∧
     classifyChat (lfChatId "itemB" "m1" "r1") (some "itemB") =
       ChatCategory.lostFound) :=
  ⟨⟨by decide, by decide, by decide⟩,
   C6_classification "u1" "u2" "b1" "s1" "m1" "r1" "itemA" "itemB"
     (by decide) (by decide) (by decide)⟩

/-- C7 counterexample: two send operations carrying the identical
(sender, text, timestamp) triple — e.g. a double submission within the same
millisecond — are collapsed by the array-union update, so after 2 sends the
conversation reads back 1 message, not 2. -/
theorem C7_cex :
    (lookupStore
        (sendMessage "u" "hi" 5 11 (some "c1")
          (sendMessage "u" "hi" 5 10 (some "c1")
            [("c1", ⟨none, ["u", "v"], ["u@c.edu", "v@c.edu"], [], 0⟩)])) "c1").map
      (fun r => r.messages) = some [⟨"u", "hi", 5⟩] := by
  decide

/-- C7 (amended): provided every send carries non-empty trimmed text and no
send duplicates a (sender, text, timestamp) triple already present or produced
by another of the sends, running N sends and reading the conversation back
returns exactly the N new messages appended in order after the prior ones,
with senders and text preserved; and each single send rewrites the record to
its old fields with exactly one message appended at the tail and the
last-activity marker set to the send's server timestamp, in the same update. -/
theorem C7_message_append (chatId : String)
    (sends : List (String × String × Nat × Nat)) (st : Store) (r : ChatRecord)
    (hr : lookupStore st chatId = some r)
    (htext : ∀ p ∈ sends, jsTrim p.2.1 ≠ "")
    (hnodup : (r.messages ++ sends.map msgOfSend).Nodup) :
    (∃ r', lookupStore (runSends chatId sends st) chatId = some r' ∧
       r'.messages = r.messages ++ sends.map msgOfSend) ∧
    (∀ (uid text : String) (cts sts : Nat) (st2 : Store) (r2 : ChatRecord),
       lookupStore st2 chatId = some r2 → jsTrim text ≠ "" →
       Message.mk uid (jsTrim text) cts ∉ r2.messages →
       sendMessage uid text cts sts (some chatId) st2 =
         setRecord st2 chatId
           ⟨r2.itemId, r2.participants, r2.participantEmails,
             r2.messages ++ [⟨uid, jsTrim text, cts⟩], sts⟩) :=
  ⟨runSends_spec chatId sends st r hr htext hnodup,
   fun uid text cts sts st2 r2 h1 h2 h3 =>
     sendMessage_append chatId uid text cts sts st2 r2 h1 h2 h3⟩

/-- Witness for C7's amended statement: two distinct sends against a fresh
conversation, and one single-send append. -/
theorem C7_witness :
    lookupStore [("c1", (⟨none, ["u", "v"], ["u@c.edu", "v@c.edu"], [], 0⟩ : ChatRecord))]
      "c1" = some ⟨none, ["u", "v"], ["u@c.edu", "v@c.edu"], [], 0⟩ ∧
    (∃ r', lookupStore
        (runSends "c1" [("u", " hola ", 1, 10), ("v", "ok", 2, 20)]
          [("c1", ⟨none, ["u", "v"], ["u@c.edu", "v@c.edu"], [], 0⟩)]) "c1" = some r' ∧
      r'.messages = (⟨none, ["u", "v"], ["u@c.edu", "v@c.edu"], [], 0⟩ : ChatRecord).messages ++
        [("u", " hola ", 1, 10), ("v", "ok", 2, 20)].map msgOfSend) ∧
    sendMessage "w" "yo" 3 30 (some "c1")
        [("c1", ⟨none, ["u", "v"], ["u@c.edu", "v@c.edu"], [], 0⟩)] =
      setRecord [("c1", ⟨none, ["u", "v"], ["u@c.edu", "v@c.edu"], [], 0⟩)] "c1"
        ⟨none, ["u", "v"], ["u@c.edu", "v@c.edu"], [⟨"w", jsTrim "yo", 3⟩], 30⟩ := by
  have h := C7_message_append "c1" [("u", " hola ", 1, 10), ("v", "ok", 2, 20)]
    [("c1", ⟨none, ["u", "v"], ["u@c.edu", "v@c.edu"], [], 0⟩)]
    ⟨none, ["u", "v"], ["u@c.edu", "v@c.edu"], [], 0⟩
    (by decide) (by decide) (by decide)
  refine ⟨by decide, h.1, ?_⟩
  have h2 := h.2 "w" "yo" 3 30
    [("c1", ⟨none, ["u", "v"], ["u@c.edu", "v@c.edu"], [], 0⟩)]
    ⟨none, ["u", "v"], ["u@c.edu", "v@c.edu"], [], 0⟩
    (by decide) (by decide) (by decide)
  exact h2

/-- C8 counterexample: the chat-hub conversation list performs no client-side
sort — it renders the snapshot in store-returned order — so a snapshot arriving
in ascending-recency order is presented ascending, not strictly descending. -/
theorem C8_cex :
    loadConversationsOrder HubTab.general
        [("a_b", ⟨none, ["a", "b"], ["a@c.edu", "b@c.edu"], [], 1⟩),
         ("a_c", ⟨none, ["a", "c"], ["a@c.edu", "c@c.edu"], [], 2⟩)] =
      [("a_b", ⟨none, ["a", "b"], ["a@c.edu", "b@c.edu"], [], 1⟩),
       ("a_c", ⟨none, ["a", "c"], ["a@c.edu", "c@c.edu"], [], 2⟩)] ∧
    (1 : Nat) < 2 := by
  decide

/-- C8 (amended): the marketplace inbox aggregation re-sorts client-side: for
records with pairwise-distinct last-activity timestamps it presents them in
strictly descending recency, and the presented order is the same for any two
store-returned orders of the same records; the chat-hub and lost-and-found
inboxes instead present records in the order the store returned them. -/
theorem C8_inbox_sort (docs docs' : List (String × ChatRecord))
    (hperm : docs.Perm docs')
    (hnodup : (docs.map secondsOf).Nodup) :
    loadInboxOrder docs = loadInboxOrder docs' ∧
    List.Sorted (fun x y => secondsOf y < secondsOf x) (loadInboxOrder docs) := by
  have hp1 : (loadInboxOrder docs).Perm docs := List.perm_insertionSort inboxLe docs
  have hp2 : (loadInboxOrder docs').Perm docs' := List.perm_insertionSort inboxLe docs'
  have hs1 : List.Pairwise inboxLe (loadInboxOrder docs) :=
    List.sorted_insertionSort inboxLe docs
  have hs2 : List.Pairwise inboxLe (loadInboxOrder docs') :=
    List.sorted_insertionSort inboxLe docs'
  have hne : List.Pairwise (fun x y => secondsOf x ≠ secondsOf y) docs :=
    List.pairwise_map.mp hnodup
  have hne' : List.Pairwise (fun x y => secondsOf x ≠ secondsOf y) docs' :=
    (hperm.pairwise_iff (fun h => h.symm)).mp hne
  have hne1 : List.Pairwise (fun x y => secondsOf x ≠ secondsOf y) (loadInboxOrder docs) :=
    (hp1.pairwise_iff (fun h => h.symm)).mpr hne
  have hne2 : List.Pairwise (fun x y => secondsOf x ≠ secondsOf y) (loadInboxOrder docs') :=
    (hp2.pairwise_iff (fun h => h.symm)).mpr hne'
  have strict1 : List.Pairwise (fun x y => secondsOf y < secondsOf x) (loadInboxOrder docs) :=
    (hne1.and hs1).imp (fun hxy => lt_of_le_of_ne hxy.2 (fun hc => hxy.1 hc.symm))
  have strict2 : List.Pairwise (fun x y => secondsOf y < secondsOf x) (loadInboxOrder docs') :=
    (hne2.and hs2).imp (fun hxy => lt_of_le_of_ne hxy.2 (fun hc => hxy.1 hc.symm))
  haveI : IsAntisymm (String × ChatRecord) (fun x y => secondsOf y < secondsOf x) :=
    ⟨fun x y h1 h2 => absurd h2 (Nat.lt_asymm h1)⟩
  exact ⟨List.eq_of_perm_of_sorted (hp1.trans (hperm.trans hp2.symm)) strict1 strict2,
    strict1⟩

/-- Witness for C8's amended statement: two records with timestamps 1 and 2
arriving in either order are presented identically. -/
theorem C8_witness :
    ([("k1", (⟨none, ["a", "b"], ["a@c.edu", "b@c.edu"], [], 1⟩ : ChatRecord)),
      ("k2", (⟨none, ["a", "c"], ["a@c.edu", "c@c.edu"], [], 2⟩ : ChatRecord))].Perm
      [("k2", ⟨none, ["a", "c"], ["a@c.edu", "c@c.edu"], [], 2⟩),
       ("k1", ⟨none, ["a", "b"], ["a@c.edu", "b@c.edu"], [], 1⟩)]) ∧
    (loadInboxOrder
        [("k1", ⟨none, ["a", "b"], ["a@c.edu", "b@c.edu"], [], 1⟩),
         ("k2", ⟨none, ["a", "c"], ["a@c.edu", "c@c.edu"], [], 2⟩)] =
      loadInboxOrder
        [("k2", ⟨none, ["a", "c"], ["a@c.edu", "c@c.edu"], [], 2⟩),
         ("k1", ⟨none, ["a", "b"], ["a@c.edu", "b@c.edu"], [], 1⟩)] ∧
     List.Sorted (fun x y => secondsOf y < secondsOf x)
       (loadInboxOrder
         [("k1", ⟨none, ["a", "b"], ["a@c.edu", "b@c.edu"], [], 1⟩),
          ("k2", ⟨none, ["a", "c"], ["a@c.edu", "c@c.edu"], [], 2⟩)])) :=
  ⟨by decide,
   C8_inbox_sort
     [("k1", ⟨none, ["a", "b"], ["a@c.edu", "b@c.edu"], [], 1⟩),
      ("k2", ⟨none, ["a", "c"], ["a@c.edu", "c@c.edu"], [], 2⟩)]
     [("k2", ⟨none, ["a", "c"], ["a@c.edu", "c@c.edu"], [], 2⟩),
      ("k1", ⟨none, ["a", "b"], ["a@c.edu", "b@c.edu"], [], 1⟩)]
     (by decide) (by decide)⟩

/-- C9: for a conversation with at least one message the unread flag is true
exactly when the latest message's sender differs from the viewer and false
exactly when it is the viewer, and the aggregate unread counter equals the
number of listed conversations whose unread flag is set. -/
theorem C9_unread_flag (viewer : String) (r : ChatRecord) (m : Message)
    (hm : latestMessage r = some m) (docs : List (String × ChatRecord)) :
    (unreadFlag viewer r = true ↔ m.senderId ≠ viewer) ∧
    (unreadFlag viewer r = false ↔ m.senderId = viewer) ∧
    inboxUnreadCount viewer docs = docs.countP (fun d => unreadFlag viewer d.2) := by
  refine ⟨?_, ?_, ?_⟩
  · simp [unreadFlag, hm, bne_iff_ne]
  · simp [unreadFlag, hm]
  · have h := foldl_unread_count viewer docs 0
    simpa [inboxUnreadCount] using h

/-- Witness for C9 at a concrete conversation and inbox. -/
theorem C9_witness :
    latestMessage ⟨none, ["me", "other"], ["me@c.edu", "o@c.edu"],
        [⟨"me", "hi", 1⟩, ⟨"other", "yo", 2⟩], 2⟩ = some ⟨"other", "yo", 2⟩ ∧
    ((unreadFlag "me" ⟨none, ["me", "other"], ["me@c.edu", "o@c.edu"],
        [⟨"me", "hi", 1⟩, ⟨"other", "yo", 2⟩], 2⟩ = true ↔
        ("other" : String) ≠ "me") ∧
     (unreadFlag "me" ⟨none, ["me", "other"], ["me@c.edu", "o@c.edu"],
        [⟨"me", "hi", 1⟩, ⟨"other", "yo", 2⟩], 2⟩ = false ↔
        ("other" : String) = "me") ∧
     inboxUnreadCount "me"
        [("k1", ⟨none, ["me", "other"], ["me@c.edu", "o@c.edu"],
          [⟨"me", "hi", 1⟩, ⟨"other", "yo", 2⟩], 2⟩),
         ("k2", ⟨none, ["me", "x"], ["me@c.edu", "x@c.edu"], [⟨"me", "sup", 3⟩], 3⟩)] =
       List.countP (fun d => unreadFlag "me" d.2)
        [("k1", ⟨none, ["me", "other"], ["me@c.edu", "o@c.edu"],
          [⟨"me", "hi", 1⟩, ⟨"other", "yo", 2⟩], 2⟩),
         ("k2", ⟨none, ["me", "x"], ["me@c.edu", "x@c.edu"], [⟨"me", "sup", 3⟩], 3⟩)]) :=
  ⟨by decide,
   C9_unread_flag "me" ⟨none, ["me", "other"], ["me@c.edu", "o@c.edu"],
       [⟨"me", "hi", 1⟩, ⟨"other", "yo", 2⟩], 2⟩ ⟨"other", "yo", 2⟩ (by decide)
     [("k1", ⟨none, ["me", "other"], ["me@c.edu", "o@c.edu"],
       [⟨"me", "hi", 1⟩, ⟨"other", "yo", 2⟩], 2⟩),
      ("k2", ⟨none, ["me", "x"], ["me@c.edu", "x@c.edu"], [⟨"me", "sup", 3⟩], 3⟩)]⟩

/-- C10: in all three modules the send handler leaves the store completely
unchanged when the trimmed input text is empty or no conversation is active,
and any message present after a send either was already stored before it or
has a non-empty text body — so no appended message is ever empty. -/
theorem C10_send_guard (uid raw : String) (cts sts : Nat) (active : Option String)
    (st : Store) :
    ((jsTrim raw = "" ∨ active = none) → sendMessage uid raw cts sts active st = st) ∧
    (∀ (k : String) (r' : ChatRecord),
      lookupStore (sendMessage uid raw cts sts active st) k = some r' →
      ∀ m ∈ r'.messages,
        (∃ r0, lookupStore st k = some r0 ∧ m ∈ r0.messages) ∨ m.text ≠ "") := by
  constructor
  · rintro (h | h)
    · simp [sendMessage, h]
    · subst h
      by_cases ht : jsTrim raw = "" <;> simp [sendMessage, ht]
  · intro k r' hk m hm
    by_cases ht : jsTrim raw = ""
    · rw [show sendMessage uid raw cts sts active st = st by simp [sendMessage, ht]] at hk
      exact Or.inl ⟨r', hk, hm⟩
    · cases active with
      | none =>
          rw [show sendMessage uid raw cts sts none st = st by simp [sendMessage, ht]] at hk
          exact Or.inl ⟨r', hk, hm⟩
      | some cid =>
          cases hx : lookupStore st cid with
          | none =>
              rw [show sendMessage uid raw cts sts (some cid) st = st by
                simp [sendMessage, ht, hx]] at hk
              exact Or.inl ⟨r', hk, hm⟩
          | some r0 =>
              rw [show sendMessage uid raw cts sts (some cid) st =
                  setRecord st cid
                    { r0 with
                      messages := arrayUnionMsg r0.messages ⟨uid, jsTrim raw, cts⟩,
                      lastUpdated := sts } by simp [sendMessage, ht, hx],
                lookupStore_setRecord] at hk
              by_cases hkc : k = cid
              · rw [if_pos hkc] at hk
                cases hk
                rw [hkc]
                unfold arrayUnionMsg at hm
                by_cases hmem : (⟨uid, jsTrim raw, cts⟩ : Message) ∈ r0.messages
                · rw [if_pos hmem] at hm
                  exact Or.inl ⟨r0, hx, hm⟩
                · rw [if_neg hmem] at hm
                  rcases List.mem_append.mp hm with hold | hnew
                  · exact Or.inl ⟨r0, hx, hold⟩
                  · refine Or.inr ?_
                    rw [List.mem_singleton.mp hnew]
                    exact ht
              · rw [if_neg hkc] at hk
                exact Or.inl ⟨r', hk, hm⟩

/-- Witness for C10: a whitespace-only send is a no-op, and a message present
after a real send is old or non-empty. -/
theorem C10_witness :
    sendMessage "u" " " 1 2 (some "c1")
        [("c1", ⟨none, ["u", "v"], ["u@c.edu", "v@c.edu"], [], 0⟩)] =
      [("c1", ⟨none, ["u", "v"], ["u@c.edu", "v@c.edu"], [], 0⟩)] ∧
    ((∃ r0, lookupStore
        [("c1", (⟨none, ["u", "v"], ["u@c.edu", "v@c.edu"], [], 0⟩ : ChatRecord))] "c1" =
          some r0 ∧ (⟨"u", jsTrim "hey", 1⟩ : Message) ∈ r0.messages) ∨
      (⟨"u", jsTrim "hey", 1⟩ : Message).text ≠ "") := by
  constructor
  · exact (C10_send_guard "u" " " 1 2 (some "c1")
      [("c1", ⟨none, ["u", "v"], ["u@c.edu", "v@c.edu"], [], 0⟩)]).1 (Or.inl (by decide))
  · exact (C10_send_guard "u" "hey" 1 2 (some "c1")
      [("c1", ⟨none, ["u", "v"], ["u@c.edu", "v@c.edu"], [], 0⟩)]).2 "c1"
      ⟨none, ["u", "v"], ["u@c.edu", "v@c.edu"], [⟨"u", jsTrim "hey", 1⟩], 2⟩
      (by decide) ⟨"u", jsTrim "hey", 1⟩ (by decide)

end CampusHub
